import Mathlib

/-!
# PanWatch — verification of the agent scheduling / notification configuration layer

This file embeds, as Lean definitions, the schedule-string handling of the
PanWatch frontend (`parseCronToConfig` / `configToCron` in `Agents.tsx`, the
agent-binding editors in `Stocks.tsx`, `saveSource` in the data-sources page)
together with models of the backend engine components that the repository's
spec describes but whose code is not part of the visible sources
(ThrottleGate, ConfigResolver, DataSourceRouter, channel-default handling,
the manual channel-test path).  Theorems at the end settle the spec's
testable properties against these definitions.
-/

namespace PanWatch

/-! ## Character / string primitives

The frontend manipulates schedule strings with JavaScript's `parseInt`,
`String.prototype.split`, `trim`, `padStart` and template interpolation.
We model these at the character-list level with structurally recursive
functions so that every theorem below can be evaluated by the kernel.
-/

/-- Numeric value of a list of decimal digit characters (most significant
first), the accumulator form used by JavaScript's `parseInt`. -/
def digitsVal (ds : List Char) : Nat :=
  ds.foldl (fun a c => a * 10 + (c.toNat - 48)) 0

/-- Longest prefix of decimal digits, as consumed by `parseInt`. -/
def leadingDigits : List Char → List Char
  | [] => []
  | c :: cs => if c.isDigit then c :: leadingDigits cs else []

/-- JavaScript `parseInt(s)` (radix 10): optional sign, then the longest
digit prefix; `none` models `NaN`. -/
def jsParseInt (s : String) : Option Int :=
  match s.data with
  | [] => none
  | c :: cs =>
    if c = '-' then
      if leadingDigits cs = [] then none
      else some (-(digitsVal (leadingDigits cs) : Int))
    else if c = '+' then
      if leadingDigits cs = [] then none
      else some ((digitsVal (leadingDigits cs) : Int))
    else
      if leadingDigits (c :: cs) = [] then none
      else some ((digitsVal (leadingDigits (c :: cs)) : Int))

/-- Decimal digit character for `n < 10`. -/
def digitChar (n : Nat) : Char := Char.ofNat (48 + n)

/-- Decimal representation of a natural number, fuel-driven so that it is
structurally recursive (fuel `n + 1` always suffices). -/
def natToCharsAux : Nat → Nat → List Char
  | 0, _ => []
  | fuel + 1, n =>
    if n < 10 then [digitChar n]
    else natToCharsAux fuel (n / 10) ++ [digitChar (n % 10)]

/-- Decimal digit string of a natural number (JavaScript `Number#toString`
restricted to naturals). -/
def natToChars (n : Nat) : List Char := natToCharsAux (n + 1) n

/-- JavaScript `Number#toString` on integers. -/
def intToString : Int → String
  | .ofNat n => String.mk (natToChars n)
  | .negSucc n => String.mk ('-' :: natToChars (n + 1))

/-- Split on maximal runs of characters satisfying `p`, dropping empty
tokens — the behaviour of JavaScript `trim().split(/RUN+/)` composed with
a non-empty filter.  Tail-recursive over the character list with an
accumulator for the current token (kept reversed). -/
def splitRunsAux (p : Char → Bool) : List Char → List Char → List (List Char)
  | [], acc => if acc = [] then [] else [acc.reverse]
  | c :: cs, acc =>
    if p c then
      if acc = [] then splitRunsAux p cs []
      else acc.reverse :: splitRunsAux p cs []
    else splitRunsAux p cs (c :: acc)

/-- Split a string on runs of characters satisfying `p`, no empty tokens. -/
def splitRuns (p : Char → Bool) (s : String) : List String :=
  (splitRunsAux p s.data []).map String.mk

/-- Whitespace tokenisation: JavaScript `s.trim().split(/\s+/)` restricted
to the space-separated schedule strings the UI produces (for an all-blank
string both sides take the not-five-fields branch, so the difference in the
degenerate token list is unobservable). -/
def splitWs (s : String) : List String := splitRuns (fun c => c = ' ') s

/-- Split on every single occurrence of `sep`, keeping empty tokens —
JavaScript `s.split(sep)` for a one-character separator. -/
def splitCharAux (sep : Char) : List Char → List Char → List (List Char)
  | [], acc => [acc.reverse]
  | c :: cs, acc =>
    if c = sep then acc.reverse :: splitCharAux sep cs []
    else splitCharAux sep cs (c :: acc)

/-- JavaScript `s.split(c)` for a single-character separator. -/
def splitChar (sep : Char) (s : String) : List String :=
  (splitCharAux sep s.data []).map String.mk

/-- JavaScript `s.padStart(2, '0')`. -/
def pad2 (s : String) : String :=
  if s.data.length < 2 then String.mk (List.replicate (2 - s.data.length) '0') ++ s
  else s

/-- JavaScript `s.trim()`. -/
def jsTrim (s : String) : String :=
  String.mk (((s.data.dropWhile Char.isWhitespace).reverse.dropWhile Char.isWhitespace).reverse)

/-! ## Schedule strings: the frontend's friendly-config round trip

`Agents.tsx` converts between a raw five-field cron string and a friendly
`ScheduleConfig` (`parseCronToConfig` / `configToCron`).  These are embedded
verbatim below.
-/

/-- Schedule type union from `Agents.tsx`: `'daily' | 'weekdays' | 'interval' | 'cron'`. -/
inductive ScheduleType
  | daily
  | weekdays
  | interval
  | cron
deriving DecidableEq

/-- Friendly schedule configuration from `Agents.tsx`: optional `time` (`HH:MM`), optional
`interval` (minutes), optional raw `cron` string. -/
structure ScheduleConfig where
  type : ScheduleType
  time : Option String
  interval : Option Int
  cron : Option String
deriving DecidableEq

/-- Does the token start with `*/` (JavaScript `minute.startsWith('*/')`)? -/
def startsWithStarSlash (s : String) : Bool :=
  s.data.take 2 = ['*', '/']

/-- JavaScript `s.slice(2)`. -/
def slice2 (s : String) : String := String.mk (s.data.drop 2)

/-- Embedding of `parseCronToConfig` from `Agents.tsx`: an empty string defaults to
daily 15:30; a non-five-field string is kept verbatim as type `cron`; a
`*/N` minute field (with `N` parseable) gives type `interval`; a numeric
minute and hour give `weekdays` when the day-of-week field is `1-5` and
`daily` when it is `*`; everything else is kept verbatim as type `cron`. -/
def parseCronToConfig (cron : String) : ScheduleConfig :=
  if cron = "" then ⟨.daily, some "15:30", none, none⟩
  else
    match splitWs cron with
    | [minute, hour, _dom, _month, dayOfWeek] =>
      match (if startsWithStarSlash minute then jsParseInt (slice2 minute) else none) with
      | some n => ⟨.interval, none, some n, none⟩
      | none =>
        match jsParseInt minute, jsParseInt hour with
        | some m, some h =>
          let time := pad2 (intToString h) ++ ":" ++ pad2 (intToString m)
          if dayOfWeek = "1-5" then ⟨.weekdays, some time, none, none⟩
          else if dayOfWeek = "*" then ⟨.daily, some time, none, none⟩
          else ⟨.cron, none, none, some cron⟩
        | _, _ => ⟨.cron, none, none, some cron⟩
    | _ => ⟨.cron, none, none, some cron⟩

/-- JavaScript falsy-or default: `config.time || '15:30'` etc. -/
def orDefaultStr (v : Option String) (d : String) : String :=
  match v with
  | some s => if s = "" then d else s
  | none => d

/-- Render a possibly-missing `parseInt` result the way a JS template
literal would (`NaN` when the split produced no token / no number). -/
def numToString : Option Int → String
  | some n => intToString n
  | none => "NaN"

/-- The parse function lifted over a possibly-missing token (JS `parseInt(undefined) = NaN`). -/
def jsParseIntOpt : Option String → Option Int
  | some s => jsParseInt s
  | none => none

/-- Embedding of `configToCron` from `Agents.tsx`. -/
def configToCron (config : ScheduleConfig) : String :=
  match config.type with
  | .daily =>
    let parts := splitChar ':' (orDefaultStr config.time "15:30")
    numToString (jsParseIntOpt (parts.get? 1)) ++ " " ++
      numToString (jsParseIntOpt (parts.get? 0)) ++ " * * *"
  | .weekdays =>
    let parts := splitChar ':' (orDefaultStr config.time "15:30")
    numToString (jsParseIntOpt (parts.get? 1)) ++ " " ++
      numToString (jsParseIntOpt (parts.get? 0)) ++ " * * 1-5"
  | .interval =>
    "*/" ++ (match config.interval with
             | some n => if n = 0 then "30" else intToString n
             | none => "30") ++ " * * * *"
  | .cron => orDefaultStr config.cron "0 15 * * *"

/-! ## Schedule semantics

Modelled from the spec: `ScheduleExpression` (§4.1) — the backend component
that parses a five-field cron-like expression and decides "is due at
timestamp T" — is not part of the visible sources.  Per the spec it supports
fixed minute/hour fields, ranges such as the day-of-week restriction `1-5`,
`*` wildcards, and the `*/N` interval shorthand on the minute field (firing
whenever the minute count is divisible by `N`; for the divisors of 60 the
UI offers this is exactly `minutesSinceEpoch mod N == 0`).  A schedule is
due at a wall-clock instant iff all five fields match it. -/
inductive CronField
  | star
  | num (n : Nat)
  | range (a b : Nat)
  | step (n : Nat)
deriving DecidableEq

/-- One cron field per position of the five-field expression. -/
structure CronSchedule where
  minute : CronField
  hour : CronField
  dom : CronField
  month : CronField
  dow : CronField
deriving DecidableEq

/-- A wall-clock instant, reduced to the five components cron matches on. -/
structure CronInstant where
  minute : Nat
  hour : Nat
  dom : Nat
  month : Nat
  dow : Nat
deriving DecidableEq

/-- Strict parse of one cron field token: `*`, `*/N`, `a-b`, or a plain
decimal numeral. -/
def parseFieldChars (cs : List Char) : Option CronField :=
  if cs = ['*'] then some .star
  else if cs.take 2 = ['*', '/'] then
    if cs.drop 2 ≠ [] ∧ (cs.drop 2).all Char.isDigit ∧ digitsVal (cs.drop 2) ≠ 0 then
      some (.step (digitsVal (cs.drop 2)))
    else none
  else
    match splitCharAux '-' cs [] with
    | [a] => if a ≠ [] ∧ a.all Char.isDigit then some (.num (digitsVal a)) else none
    | [a, b] =>
      if a ≠ [] ∧ a.all Char.isDigit ∧ b ≠ [] ∧ b.all Char.isDigit then
        some (.range (digitsVal a) (digitsVal b))
      else none
    | _ => none

/-- Range check for a parsed field against the legal values of its position. -/
def fieldValid (lo hi : Nat) : CronField → Bool
  | .star => true
  | .num n => lo ≤ n ∧ n ≤ hi
  | .range a b => lo ≤ a ∧ a ≤ b ∧ b ≤ hi
  | .step n => 0 < n

/-- Parse one field and enforce its position's bounds. -/
def parseBoundedField (lo hi : Nat) (t : String) : Option CronField :=
  match parseFieldChars t.data with
  | some f => if fieldValid lo hi f then some f else none
  | none => none

/-- Parse a five-field cron string (minute 0-59, hour 0-23, day-of-month
1-31, month 1-12, day-of-week 0-6). -/
def parseCron (s : String) : Option CronSchedule :=
  match splitWs s with
  | [mi, h, d, mo, dw] =>
    match parseBoundedField 0 59 mi, parseBoundedField 0 23 h,
          parseBoundedField 1 31 d, parseBoundedField 1 12 mo,
          parseBoundedField 0 6 dw with
    | some a, some b, some c, some e, some f => some ⟨a, b, c, e, f⟩
    | _, _, _, _, _ => none
  | _ => none

/-- A string is a valid five-field cron-like expression iff it parses. -/
def validCronStr (s : String) : Bool := (parseCron s).isSome

/-- Does a field match one time component? -/
def fieldMatches (f : CronField) (v : Nat) : Bool :=
  match f with
  | .star => true
  | .num n => v = n
  | .range a b => a ≤ v ∧ v ≤ b
  | .step n => 0 < n ∧ v % n = 0

/-- Is the schedule due at the instant? -/
def isDue (c : CronSchedule) (t : CronInstant) : Bool :=
  fieldMatches c.minute t.minute ∧ fieldMatches c.hour t.hour ∧
    fieldMatches c.dom t.dom ∧ fieldMatches c.month t.month ∧
    fieldMatches c.dow t.dow

/-- Due decision of a raw string (an unparseable string is never due). -/
def isDueStr (s : String) (t : CronInstant) : Bool :=
  match parseCron s with
  | some c => isDue c t
  | none => false

/-- Two schedule strings are equivalent iff they make the same due/not-due
decision at every instant. -/
def cronEquiv (s₁ s₂ : String) : Prop := ∀ t : CronInstant, isDueStr s₁ t = isDueStr s₂ t

/-! ## ThrottleGate

Modelled from the spec: `ThrottleGate.tryAcquire(key, now, minInterval,
bypass)` (§4.3) is a backend component with no code in the visible sources
(the frontend only exercises it through the `bypass_throttle=true` query of
`triggerStockAgent`).  State is `last_notified_at` per (agent, instrument)
key; `bypass=true` always allows and leaves the state untouched; otherwise
allow iff there is no prior state or `now - last_notified_at >= minInterval`,
updating `last_notified_at` to `now` in the same step.  Timestamps are
seconds as naturals. -/
abbrev ThrottleKey := String × Nat

/-- Per-key throttle state: `last_notified_at`, absent before the first
automatic alert. -/
abbrev ThrottleMap := ThrottleKey → Option Nat

/-- Outcome of a throttle acquisition. -/
inductive AcquireResult
  | Allowed
  | Throttled
deriving DecidableEq

/-- Modelled from the spec: the ThrottleGate acquisition step (§4.3). -/
def tryAcquire (st : ThrottleMap) (key : ThrottleKey) (now minInterval : Nat)
    (bypass : Bool) : AcquireResult × ThrottleMap :=
  if bypass then (.Allowed, st)
  else
    match st key with
    | none => (.Allowed, fun k => if k = key then some now else st k)
    | some last =>
      if minInterval ≤ now - last then
        (.Allowed, fun k => if k = key then some now else st k)
      else (.Throttled, st)

/-! ## Data model records

The record shapes below follow the TypeScript interfaces visible in the
frontend sources (`AgentConfig` in `Agents.tsx`, the per-stock agent entries
built by `toggleAgent` in `Stocks.tsx`, the channel rows used by the
settings page, `DataSourceForm` / `TestResult` in the data-sources page).
-/

/-- Agent definition, after `AgentConfig` in `Agents.tsx` (UI-only fields
such as `display_name` and `description` are irrelevant to resolution and
omitted). -/
structure AgentDefinition where
  name : String
  enabled : Bool
  schedule : String
  execution_mode : String
  ai_model_id : Option Nat
  notify_channel_ids : List Nat
deriving DecidableEq

/-- Per-instrument agent binding, after the entries `toggleAgent` in
`Stocks.tsx` submits: empty `schedule` = inherit, `none` model = inherit,
empty channel list = inherit. -/
structure InstrumentAgentBinding where
  agent_name : String
  schedule : String
  ai_model_id : Option Nat
  notify_channel_ids : List Nat
deriving DecidableEq

/-- Runtime override flags carried by a manual trigger (the frontend's
`trigger?bypass_throttle=true` call carries only the bypass flag; the spec
additionally allows forcing a schedule or model). -/
structure RuntimeOverride where
  schedule : Option String
  ai_model_id : Option Nat
  bypass_throttle : Bool
deriving DecidableEq

/-- Resolved effective configuration (spec §3, derived, not persisted). -/
structure ExecutionConfig where
  schedule : String
  ai_model_id : Option Nat
  notify_channel_ids : List Nat
deriving DecidableEq

/-- Modelled from the spec: `ConfigResolver.resolve` (§4.2) — field-by-field
precedence, highest first: runtime override, then binding override when
non-empty/non-null, then the agent default.  The binding's non-empty channel
list fully replaces the default list. -/
def resolve (d : AgentDefinition) (b : Option InstrumentAgentBinding)
    (r : RuntimeOverride) : ExecutionConfig :=
  let bindSched : Option String :=
    match b with
    | some bb => if bb.schedule = "" then none else some bb.schedule
    | none => none
  let bindModel : Option Nat :=
    match b with
    | some bb => bb.ai_model_id
    | none => none
  let bindChans : Option (List Nat) :=
    match b with
    | some bb => if bb.notify_channel_ids = [] then none else some bb.notify_channel_ids
    | none => none
  { schedule :=
      match r.schedule with
      | some s => s
      | none => match bindSched with
                | some s => s
                | none => d.schedule
    ai_model_id :=
      match r.ai_model_id with
      | some m => some m
      | none => match bindModel with
                | some m => some m
                | none => d.ai_model_id
    notify_channel_ids :=
      match bindChans with
      | some cs => cs
      | none => d.notify_channel_ids }

/-! ## Notification channels -/

/-- Notify channel row as used by the settings page (`config` key/value
secrets are irrelevant to the default/enabled logic verified here and kept
as an opaque association list). -/
structure NotifyChannel where
  id : Nat
  name : String
  type : String
  enabled : Bool
  is_default : Bool
deriving DecidableEq

/-- Modelled from the spec: the backend effect of the settings page's
set-default action (`setDefaultChannel` PUTs `is_default: true`; per §3
exactly one channel may be default at a time, so the store marks the chosen
row and unsets every other row in the same step). -/
def setDefaultChannel (chs : List NotifyChannel) (i : Nat) : List NotifyChannel :=
  chs.map fun ch => { ch with is_default := ch.id = i }

/-- Channel-store operations reachable from the settings page: create
(`saveChannel` POST, whose payload carries no `is_default`, so a new row is
never default), delete, set-default, and the enabled toggle. -/
inductive ChannelOp
  | add (ch : NotifyChannel)
  | delete (i : Nat)
  | setDefault (i : Nat)
  | setEnabled (i : Nat) (e : Bool)

/-- Modelled from the spec: one channel-store step.  Creation requires a
fresh id and never creates a default row. -/
def applyChannelOp (chs : List NotifyChannel) : ChannelOp → List NotifyChannel
  | .add ch =>
    if chs.any (fun c => c.id = ch.id) then chs
    else chs ++ [{ ch with is_default := false }]
  | .delete i => chs.filter (fun c => ¬ c.id = i)
  | .setDefault i => setDefaultChannel chs i
  | .setEnabled i e => chs.map fun c => if c.id = i then { c with enabled := e } else c

/-- States of the channel store reachable from an empty installation. -/
inductive ChannelReachable : List NotifyChannel → Prop
  | init : ChannelReachable []
  | step {s : List NotifyChannel} (h : ChannelReachable s) (op : ChannelOp) :
      ChannelReachable (applyChannelOp s op)

/-- Number of channels flagged as default. -/
def defaultCount (chs : List NotifyChannel) : Nat :=
  chs.countP (fun c => c.is_default)

/-- Resolution outcome for the notify-channel set of one run. -/
structure NotifyResolution where
  channels : List Nat
  proceeds : Bool
  warning : Bool
deriving DecidableEq

/-- Modelled from the spec: the empty-channel fallback of §4.2 — an empty
resolved set is replaced by the system default channel; with no default the
run still proceeds, without notification capability, and a warning is
logged (the frontend renders this inherited state as the 系统默认 label). -/
def resolveChannelSet (resolved : List Nat) (installed : List NotifyChannel) :
    NotifyResolution :=
  if resolved = [] then
    match installed.find? (fun c => c.is_default) with
    | some ch => ⟨[ch.id], true, false⟩
    | none => ⟨[], true, true⟩
  else ⟨resolved, true, false⟩

/-! ## DataSourceRouter

Modelled from the spec: `DataSourceRouter.fetch` (§4.4) has no code in the
visible sources (the data-sources page only renders its `TestResult` /
`TestLogItem` trail).  Enabled bindings of the requested capability type are
ordered ascending by `priority`, ties broken by the binding identifier, and
providers are invoked sequentially until one succeeds.  Provider outcomes
are abstracted as an oracle from binding id to success/failure, and a fetch
is summarised by the list of attempted binding ids (in trial order) plus
the overall success flag. -/
inductive DSType
  | news
  | kline
  | capital_flow
  | quote
  | chart
deriving DecidableEq

/-- Data-source binding, after `DataSourceForm` / the `DataSource` rows of
the data-sources page (provider/config/test_symbols do not influence trial
order and are omitted). -/
structure DSBinding where
  id : Nat
  dstype : DSType
  priority : Nat
  enabled : Bool
deriving DecidableEq

/-- Trial precedence: ascending priority, ties broken by binding id. -/
def bindingLE (a b : DSBinding) : Prop :=
  a.priority < b.priority ∨ (a.priority = b.priority ∧ a.id ≤ b.id)

instance : DecidableRel bindingLE := fun a b => by
  unfold bindingLE; infer_instance

instance : IsTotal DSBinding bindingLE := by
  constructor; intro a b; unfold bindingLE; omega

instance : IsTrans DSBinding bindingLE := by
  constructor; intro a b c; unfold bindingLE; omega

/-- Modelled from the spec: the deterministic provider trial order for one
capability type — enabled bindings of that type, sorted by `bindingLE`. -/
def trialOrder (bs : List DSBinding) (ty : DSType) : List DSBinding :=
  (bs.filter (fun b => b.enabled ∧ b.dstype = ty)).insertionSort bindingLE

/-- Modelled from the spec: sequential first-success-wins invocation along
the trial order; returns the attempted binding ids in order and whether any
attempt succeeded. -/
def fetchAttempts (att : Nat → Bool) : List DSBinding → List Nat × Bool
  | [] => ([], false)
  | b :: rest =>
    if att b.id then ([b.id], true)
    else
      let r := fetchAttempts att rest
      (b.id :: r.1, r.2)

/-- Modelled from the spec: `DataSourceRouter.fetch`, summarised as the
attempted-provider trace and overall outcome. -/
def routerFetch (bs : List DSBinding) (ty : DSType) (att : Nat → Bool) :
    List Nat × Bool :=
  fetchAttempts att (trialOrder bs ty)

/-! ## Execution logs and the manual channel test

The log-entry shape is `TestLogItem` from the data-sources page (`action ∈
{start, success, error}`, `message`, `duration_ms`, `count`). -/
inductive LogPhase
  | start
  | success
  | error
deriving DecidableEq

/-- One execution-log entry, after `TestLogItem`. -/
structure ExecutionLogEntry where
  actor : String
  phase : LogPhase
  message : String
  duration_ms : Nat
  count : Nat
deriving DecidableEq

/-- Result of a manual channel test, after the `{success, error?, logs}`
shape of the test endpoints (§6). -/
structure ChannelTestResult where
  success : Bool
  error : Option String
  logs : List ExecutionLogEntry
deriving DecidableEq

/-- Modelled from the spec: the manual channel-test path (§4.6, §8) behind
the settings page's `testChannel` POST.  It reuses the dispatch path with
`bypass = true` (so the ThrottleGate is consulted but never updated), emits
one `start` entry, makes a single send attempt, and appends one `success`
or one `error` entry; a failing send is returned as a `ChannelError`
message with `success = false`.  The delivery collaborator is abstracted as
an oracle returning `some errorMessage` on failure. -/
def runChannelTest (ch : NotifyChannel) (send : NotifyChannel → Option String)
    (st : ThrottleMap) (now : Nat) : ChannelTestResult × ThrottleMap :=
  let gate := tryAcquire st ("channel_test", ch.id) now 60 true
  let startEntry : ExecutionLogEntry := ⟨ch.name, .start, "sending test message", 0, 0⟩
  match send ch with
  | none =>
    (⟨true, none, [startEntry, ⟨ch.name, .success, "delivered", 0, 1⟩]⟩, gate.2)
  | some e =>
    (⟨false, some e, [startEntry, ⟨ch.name, .error, e, 0, 0⟩]⟩, gate.2)

/-! ## Frontend handlers under verification (in-source code) -/

/-- Embedding of `toggleAgent` from `Stocks.tsx`: the agent list submitted
when flipping a stock's enrollment switch.  When the agent is not yet
assigned it appends a binding with empty schedule, null model and empty
channel list; when assigned it filters that agent's entries out. -/
def toggleAgentPayload (current : List InstrumentAgentBinding) (agentName : String) :
    List InstrumentAgentBinding :=
  if current.any (fun a => a.agent_name = agentName) then
    current.filter (fun a => ¬ a.agent_name = agentName)
  else current ++ [⟨agentName, "", none, []⟩]

/-- Form state of the data-source settings dialog (`DataSourceForm`). -/
structure DataSourceForm where
  name : String
  type : DSType
  provider : String
  priority : Int
  supports_batch : Bool
  test_symbols : List String
deriving DecidableEq

/-- Update payload submitted by `saveSource` in the data-sources page: only
`priority` and `test_symbols`. -/
structure SaveSourcePayload where
  priority : Int
  test_symbols : List String
deriving DecidableEq

/-- Separator class of the `split(/[,，\s]+/)` regex in `saveSource`. -/
def isSymbolSep (c : Char) : Bool := c = ',' ∨ c = '，' ∨ c.isWhitespace

/-- Embedding of the test-symbol parsing in `saveSource`: split the free
input on runs of commas/fullwidth commas/whitespace, trim each token, drop
empties.  (Our run splitter already drops the empty tokens that the JS
pipeline filters at the end.) -/
def parsedTestSymbols (input : String) : List String :=
  ((splitRuns isSymbolSep input).map jsTrim).filter (fun s => 0 < s.data.length)

/-- Embedding of `saveSource` from the data-sources page: the PUT payload
is built from the form's priority and the parsed test-symbol input only. -/
def saveSourcePayload (form : DataSourceForm) (testSymbolsInput : String) :
    SaveSourcePayload :=
  ⟨form.priority, parsedTestSymbols testSymbolsInput⟩

/-! ## Shape predicates for the round-trip analysis -/

/-- A token that is a plain decimal numeral. -/
def isNumeralTok (s : String) : Bool :=
  ¬ s.data = [] ∧ s.data.all Char.isDigit

/-- A token of the exact form `*/N` with `N` a non-zero decimal numeral. -/
def intervalTok (s : String) : Bool :=
  s.data.take 2 = ['*', '/'] ∧ ¬ s.data.drop 2 = [] ∧
    (s.data.drop 2).all Char.isDigit ∧ ¬ digitsVal (s.data.drop 2) = 0

/-- The five-field strings whose restrictions the friendly `ScheduleConfig`
can represent exactly: `M H * * *` / `M H * * 1-5` with plain numerals, or
`*/N * * * *`. -/
def friendlyShape (s : String) : Bool :=
  match splitWs s with
  | [mi, h, d, mo, dw] =>
    (isNumeralTok mi ∧ isNumeralTok h ∧ d = "*" ∧ mo = "*" ∧ (dw = "*" ∨ dw = "1-5"))
    ∨ (intervalTok mi ∧ h = "*" ∧ d = "*" ∧ mo = "*" ∧ dw = "*")
  | _ => false

/-- Join character-list tokens with a single separator between consecutive
tokens (the shape of every string `configToCron` emits). -/
def joinSep (sep : Char) : List (List Char) → List Char
  | [] => []
  | [t] => t
  | t :: ts => t ++ sep :: joinSep sep ts

/-- Example bindings of the spec's DataSourceRouter scenario (§8): A has
priority 1 but is disabled; B and C are enabled with priorities 2 and 3. -/
def dsA : DSBinding := ⟨1, .news, 1, false⟩

/-- Example binding B of the router scenario. -/
def dsB : DSBinding := ⟨2, .news, 2, true⟩

/-- Example binding C of the router scenario. -/
def dsC : DSBinding := ⟨3, .news, 3, true⟩

/-! ## General helper lemmas -/

/-- If the images of a list under `f` are pairwise distinct, at most one
element maps to any given value. -/
theorem countP_key_le_one {α β : Type} [DecidableEq β] (f : α → β) (b : β) :
    ∀ l : List α, (l.map f).Nodup → l.countP (fun a => f a = b) ≤ 1 := by
  intro l
  induction l with
  | nil => intro _; simp
  | cons x xs ih =>
    intro hnd
    rw [List.map_cons, List.nodup_cons] at hnd
    rw [List.countP_cons]
    by_cases hx : f x = b
    · have hzero : xs.countP (fun a => f a = b) = 0 := by
        rw [List.countP_eq_zero]
        intro a ha
        simp only [decide_eq_true_eq]
        intro hab
        exact hnd.1 (hx ▸ hab ▸ List.mem_map_of_mem f ha)
      simp [hzero, hx]
    · simp [hx, ih hnd.2]

/-- Splitting a list by a key predicate: the elements not mapping to the
key plus the count of those that do give back the length. -/
theorem filter_not_key_length {α β : Type} [DecidableEq β] (f : α → β) (b : β) :
    ∀ l : List α,
      (l.filter (fun a => ¬ f a = b)).length + l.countP (fun a => f a = b) = l.length := by
  intro l
  induction l with
  | nil => simp
  | cons x xs ih =>
    by_cases hx : f x = b
    · simp only [List.filter_cons, List.countP_cons, hx]
      simp only [decide_not]
      simp [hx, ← ih]
      omega
    · simp only [List.filter_cons, List.countP_cons]
      simp [hx, ← ih]
      omega

/-! ## Claim theorems -/

/-- C2: with `minInterval = 60` and any key, an automatic `tryAcquire` at
time `t` on a key with no prior state returns `Allowed` and sets
`last_notified_at = t`; a second automatic call at `t + 30` is `Throttled`;
a manual (`bypass = true`) call at `t + 1` is `Allowed` and leaves the
state unchanged, so the automatic call at `t + 30` is still `Throttled`. -/
theorem throttle_bypass_preserves_cadence (st : ThrottleMap) (key : ThrottleKey)
    (t : Nat) (h : st key = none) :
    (tryAcquire st key t 60 false).1 = AcquireResult.Allowed ∧
    (tryAcquire st key t 60 false).2 key = some t ∧
    (tryAcquire (tryAcquire st key t 60 false).2 key (t + 30) 60 false).1
      = AcquireResult.Throttled ∧
    tryAcquire (tryAcquire st key t 60 false).2 key (t + 1) 60 true
      = (AcquireResult.Allowed, (tryAcquire st key t 60 false).2) ∧
    (tryAcquire (tryAcquire (tryAcquire st key t 60 false).2 key (t + 1) 60 true).2
        key (t + 30) 60 false).1 = AcquireResult.Throttled := by
  have e1 : tryAcquire st key t 60 false
      = (AcquireResult.Allowed, fun k => if k = key then some t else st k) := by
    simp [tryAcquire, h]
  rw [e1]
  have hlt : ¬ (60 ≤ t + 30 - t) := by omega
  refine ⟨rfl, by simp, by simp [tryAcquire, hlt], by simp [tryAcquire], ?_⟩
  simp [tryAcquire, hlt]

/-- Witness for C2 at a concrete key, state and time. -/
theorem throttle_bypass_preserves_cadence_witness :
    (tryAcquire (fun _ => none) ("intraday_monitor", 7) 100 60 false).1
      = AcquireResult.Allowed ∧
    (tryAcquire (fun _ => none) ("intraday_monitor", 7) 100 60 false).2
      ("intraday_monitor", 7) = some 100 ∧
    (tryAcquire (tryAcquire (fun _ => none) ("intraday_monitor", 7) 100 60 false).2
        ("intraday_monitor", 7) 130 60 false).1 = AcquireResult.Throttled ∧
    tryAcquire (tryAcquire (fun _ => none) ("intraday_monitor", 7) 100 60 false).2
        ("intraday_monitor", 7) 101 60 true
      = (AcquireResult.Allowed,
         (tryAcquire (fun _ => none) ("intraday_monitor", 7) 100 60 false).2) ∧
    (tryAcquire
        (tryAcquire (tryAcquire (fun _ => none) ("intraday_monitor", 7) 100 60 false).2
          ("intraday_monitor", 7) 101 60 true).2
        ("intraday_monitor", 7) 130 60 false).1 = AcquireResult.Throttled :=
  throttle_bypass_preserves_cadence (fun _ => none) ("intraday_monitor", 7) 100 rfl

/-- C3: with no runtime schedule override, an empty binding schedule
inherits the agent default and a non-empty binding schedule wins. -/
theorem resolve_schedule_precedence (d : AgentDefinition) (b : InstrumentAgentBinding)
    (r : RuntimeOverride) (hr : r.schedule = none) :
    (b.schedule = "" → (resolve d (some b) r).schedule = d.schedule) ∧
    (b.schedule ≠ "" → (resolve d (some b) r).schedule = b.schedule) := by
  constructor
  · intro hb; simp [resolve, hr, hb]
  · intro hb; simp [resolve, hr, hb]

/-- Witness for C3 at concrete configurations, covering both branches. -/
theorem resolve_schedule_precedence_witness :
    ((resolve ⟨"daily_report", true, "0 15 * * *", "single", none, []⟩
        (some ⟨"daily_report", "", none, []⟩) ⟨none, none, false⟩).schedule
      = "0 15 * * *") ∧
    ((resolve ⟨"daily_report", true, "0 15 * * *", "single", none, []⟩
        (some ⟨"daily_report", "*/5 9-15 * * 1-5", none, []⟩) ⟨none, none, false⟩).schedule
      = "*/5 9-15 * * 1-5") :=
  ⟨(resolve_schedule_precedence _ _ _ rfl).1 rfl,
   (resolve_schedule_precedence _ _ _ rfl).2 (by decide)⟩

/-- C6: an empty resolved channel set is replaced by the system default
channel when one exists; otherwise the run still proceeds, with no
channels, and only a warning is recorded. -/
theorem empty_channel_fallback (installed : List NotifyChannel) :
    (∀ ch, installed.find? (fun c => c.is_default) = some ch →
        ch.is_default = true ∧
        resolveChannelSet [] installed = ⟨[ch.id], true, false⟩) ∧
    (installed.find? (fun c => c.is_default) = none →
        resolveChannelSet [] installed = ⟨[], true, true⟩) := by
  constructor
  · intro ch h
    refine ⟨List.find?_some h, ?_⟩
    simp [resolveChannelSet, h]
  · intro h
    simp [resolveChannelSet, h]

/-- Witness for C6: one installation with a default channel, one without. -/
theorem empty_channel_fallback_witness :
    resolveChannelSet [] [⟨3, "tg", "telegram", true, true⟩]
      = ⟨[3], true, false⟩ ∧
    resolveChannelSet [] [⟨3, "tg", "telegram", true, false⟩]
      = ⟨[], true, true⟩ :=
  ⟨((empty_channel_fallback [⟨3, "tg", "telegram", true, true⟩]).1
      ⟨3, "tg", "telegram", true, true⟩ (by decide)).2,
   (empty_channel_fallback [⟨3, "tg", "telegram", true, false⟩]).2 (by decide)⟩

/-- C8: a manual channel test whose send fails returns the channel error
with `success = false`, logs exactly one `start` and one `error` entry, and
leaves the throttle state of every key unchanged. -/
theorem channel_test_invalid_credentials (ch : NotifyChannel)
    (send : NotifyChannel → Option String) (st : ThrottleMap) (now : Nat)
    (msg : String) (h : send ch = some msg) :
    (runChannelTest ch send st now).1.success = false ∧
    (runChannelTest ch send st now).1.error = some msg ∧
    ((runChannelTest ch send st now).1.logs.countP
        (fun l => l.phase = LogPhase.start)) = 1 ∧
    ((runChannelTest ch send st now).1.logs.countP
        (fun l => l.phase = LogPhase.error)) = 1 ∧
    (runChannelTest ch send st now).2 = st := by
  simp [runChannelTest, h, tryAcquire, List.countP_cons]

/-- Witness for C8 with concrete invalid-credential behaviour. -/
theorem channel_test_invalid_credentials_witness :
    (runChannelTest ⟨3, "tg", "telegram", true, false⟩
        (fun _ => some "401 unauthorized") (fun _ => none) 100).1.success = false ∧
    (runChannelTest ⟨3, "tg", "telegram", true, false⟩
        (fun _ => some "401 unauthorized") (fun _ => none) 100).1.error
      = some "401 unauthorized" ∧
    ((runChannelTest ⟨3, "tg", "telegram", true, false⟩
        (fun _ => some "401 unauthorized") (fun _ => none) 100).1.logs.countP
        (fun l => l.phase = LogPhase.start)) = 1 ∧
    ((runChannelTest ⟨3, "tg", "telegram", true, false⟩
        (fun _ => some "401 unauthorized") (fun _ => none) 100).1.logs.countP
        (fun l => l.phase = LogPhase.error)) = 1 ∧
    (runChannelTest ⟨3, "tg", "telegram", true, false⟩
        (fun _ => some "401 unauthorized") (fun _ => none) 100).2 = (fun _ => none) :=
  channel_test_invalid_credentials _ _ _ 100 "401 unauthorized" rfl

/-- C9: enrolling a stock in an agent appends a fully-inheriting binding
(empty schedule, null model, empty channel list); unenrolling removes that
agent's binding and keeps every other binding, in order. -/
theorem toggle_agent_binding (current : List InstrumentAgentBinding) (name : String) :
    (current.any (fun a => a.agent_name = name) = false →
        toggleAgentPayload current name
          = current ++ [⟨name, "", none, []⟩]) ∧
    (current.any (fun a => a.agent_name = name) = true →
        (∀ a ∈ toggleAgentPayload current name, a.agent_name ≠ name) ∧
        (∀ a ∈ current, a.agent_name ≠ name → a ∈ toggleAgentPayload current name) ∧
        toggleAgentPayload current name
          = current.filter (fun a => ¬ a.agent_name = name) ∧
        ((current.map (fun a => a.agent_name)).Nodup →
            (toggleAgentPayload current name).length + 1 = current.length)) := by
  constructor
  · intro h
    simp only [toggleAgentPayload, h]
    rfl
  · intro h
    have hfilter : toggleAgentPayload current name
        = current.filter (fun a => ¬ a.agent_name = name) := by
      simp only [toggleAgentPayload, h]
      rfl
    refine ⟨?_, ?_, hfilter, ?_⟩
    · intro a ha
      rw [hfilter] at ha
      have := List.of_mem_filter ha
      simpa using this
    · intro a ha hne
      rw [hfilter]
      exact List.mem_filter.2 ⟨ha, by simpa using hne⟩
    · intro hnd
      have hone : current.countP (fun a => a.agent_name = name) = 1 := by
        have hle := countP_key_le_one (fun a => a.agent_name) name current hnd
        simp only [] at hle
        have hpos : 0 < current.countP (fun a => a.agent_name = name) := by
          rw [List.any_eq_true] at h
          obtain ⟨a, ha, hval⟩ := h
          exact List.countP_pos_iff.2 ⟨a, ha, hval⟩
        omega
      rw [hfilter]
      have hsplit := filter_not_key_length (fun a => a.agent_name) name current
      simp only [] at hsplit
      omega

/-- Witness for C9: enroll into, then out of, a two-binding list. -/
theorem toggle_agent_binding_witness :
    toggleAgentPayload [⟨"daily_report", "", none, []⟩] "intraday_monitor"
      = [⟨"daily_report", "", none, []⟩, ⟨"intraday_monitor", "", none, []⟩] ∧
    toggleAgentPayload
        [⟨"daily_report", "", none, []⟩, ⟨"intraday_monitor", "", none, []⟩]
        "intraday_monitor"
      = [⟨"daily_report", "", none, []⟩] :=
  ⟨(toggle_agent_binding [⟨"daily_report", "", none, []⟩] "intraday_monitor").1
      (by decide),
   by
    have := ((toggle_agent_binding
        [⟨"daily_report", "", none, []⟩, ⟨"intraday_monitor", "", none, []⟩]
        "intraday_monitor").2 (by decide)).2.2.1
    rw [this]
    decide⟩

/-- C10: the data-source settings update depends only on the form's
priority and the symbol input (name/type/provider/config/enabled are never
part of the payload), and every submitted test symbol is non-empty. -/
theorem save_source_payload_frame (f₁ f₂ : DataSourceForm) (input : String) :
    (f₁.priority = f₂.priority →
        saveSourcePayload f₁ input = saveSourcePayload f₂ input) ∧
    (saveSourcePayload f₁ input).priority = f₁.priority ∧
    (saveSourcePayload f₁ input).test_symbols = parsedTestSymbols input ∧
    (∀ s ∈ (saveSourcePayload f₁ input).test_symbols, s ≠ "") := by
  refine ⟨?_, rfl, rfl, ?_⟩
  · intro hp
    simp [saveSourcePayload, hp]
  · intro s hs
    simp only [saveSourcePayload, parsedTestSymbols, List.mem_filter] at hs
    intro hempty
    rw [hempty] at hs
    simp at hs

/-- Channel-store operations never duplicate channel ids. -/
theorem applyChannelOp_nodup (s : List NotifyChannel) (op : ChannelOp)
    (h : (s.map (fun c => c.id)).Nodup) :
    ((applyChannelOp s op).map (fun c => c.id)).Nodup := by
  cases op with
  | add ch =>
    by_cases hdup : s.any (fun c => c.id = ch.id)
    · simpa [applyChannelOp, hdup] using h
    · rw [List.any_eq_true] at hdup
      push_neg at hdup
      simp only [applyChannelOp, hdup, if_neg, Bool.not_eq_true, List.any_eq_false]
      rw [if_neg (by simpa using hdup)]
      rw [List.map_append, List.nodup_append]
      refine ⟨h, by simp, ?_⟩
      intro x hx
      simp only [List.mem_map] at hx
      obtain ⟨c, hc, rfl⟩ := hx
      have := hdup c hc
      simp only [List.map_cons, List.map_nil, List.mem_singleton]
      simp only [decide_eq_true_eq] at this
      simpa using this
  | delete i =>
    exact h.sublist (List.Sublist.map _ (List.filter_sublist s))
  | setDefault i =>
    have hids : ((setDefaultChannel s i).map (fun c => c.id)) = s.map (fun c => c.id) := by
      rw [setDefaultChannel, List.map_map]
      exact List.map_congr_left (fun c _ => rfl)
    simpa [applyChannelOp, hids] using h
  | setEnabled i e =>
    have hids : (((s.map fun c => if c.id = i then { c with enabled := e } else c)).map
        (fun c => c.id)) = s.map (fun c => c.id) := by
      rw [List.map_map]
      refine List.map_congr_left (fun c _ => ?_)
      by_cases hc : c.id = i <;> simp [hc]
    simpa [applyChannelOp, hids] using h

/-- Channel-store operations keep at most one default channel. -/
theorem applyChannelOp_defaultCount (s : List NotifyChannel) (op : ChannelOp)
    (hn : (s.map (fun c => c.id)).Nodup) (h : defaultCount s ≤ 1) :
    defaultCount (applyChannelOp s op) ≤ 1 := by
  cases op with
  | add ch =>
    by_cases hdup : s.any (fun c => c.id = ch.id)
    · simpa [applyChannelOp, hdup] using h
    · simp only [applyChannelOp]
      rw [if_neg hdup]
      simpa [defaultCount, List.countP_append] using h
  | delete i =>
    exact le_trans (List.Sublist.countP_le _ (List.filter_sublist s)) h
  | setDefault i =>
    have he : defaultCount (setDefaultChannel s i) = s.countP (fun c => decide (c.id = i)) := by
      show ((s.map _).countP _) = _
      rw [List.countP_map]
      rfl
    show defaultCount (setDefaultChannel s i) ≤ 1
    rw [he]
    have hkey := countP_key_le_one (fun c : NotifyChannel => c.id) i s hn
    simpa using hkey
  | setEnabled i e =>
    have hcomp : ((fun c : NotifyChannel => c.is_default) ∘
        (fun c => if c.id = i then { c with enabled := e } else c)) =
        fun c : NotifyChannel => c.is_default := by
      funext c
      by_cases hc : c.id = i <;> simp [hc]
    show ((s.map _).countP _) ≤ 1
    rw [List.countP_map, hcomp]
    exact h

/-- Every reachable channel-store state has pairwise distinct ids and at
most one default channel. -/
theorem channelReachable_inv (s : List NotifyChannel) (h : ChannelReachable s) :
    (s.map (fun c => c.id)).Nodup ∧ defaultCount s ≤ 1 := by
  induction h with
  | init => simp [defaultCount]
  | step _ op ih =>
    exact ⟨applyChannelOp_nodup _ op ih.1, applyChannelOp_defaultCount _ op ih.1 ih.2⟩

/-- C7: in every reachable channel-store state at most one channel is
default, and a set-default step yields a state where the chosen id is the
only possible default — the previous default is unset in the same step. -/
theorem single_default_invariant (s : List NotifyChannel) (h : ChannelReachable s) :
    defaultCount s ≤ 1 ∧
    ∀ i, defaultCount (applyChannelOp s (ChannelOp.setDefault i)) ≤ 1 ∧
      (∀ ch ∈ applyChannelOp s (ChannelOp.setDefault i), ch.is_default = true → ch.id = i) := by
  obtain ⟨hn, hd⟩ := channelReachable_inv s h
  refine ⟨hd, fun i => ⟨applyChannelOp_defaultCount s _ hn hd, ?_⟩⟩
  intro ch hch hdef
  simp only [applyChannelOp, setDefaultChannel, List.mem_map] at hch
  obtain ⟨c, _, rfl⟩ := hch
  simpa using hdef

/-- Witness for C7: a two-channel store where the default is moved from
channel 1 to channel 2. -/
theorem single_default_invariant_witness :
    defaultCount (applyChannelOp (applyChannelOp (applyChannelOp
        (applyChannelOp ([] : List NotifyChannel)
          (ChannelOp.add ⟨1, "tg", "telegram", true, false⟩))
          (ChannelOp.add ⟨2, "bark", "bark", true, false⟩))
          (ChannelOp.setDefault 1)) (ChannelOp.setDefault 2)) ≤ 1 ∧
    defaultCount (applyChannelOp (applyChannelOp (applyChannelOp (applyChannelOp
        (applyChannelOp ([] : List NotifyChannel)
          (ChannelOp.add ⟨1, "tg", "telegram", true, false⟩))
          (ChannelOp.add ⟨2, "bark", "bark", true, false⟩))
          (ChannelOp.setDefault 1)) (ChannelOp.setDefault 2))
          (ChannelOp.setDefault 1)) ≤ 1 :=
  ⟨(single_default_invariant _
      (ChannelReachable.step (ChannelReachable.step (ChannelReachable.step
        (ChannelReachable.step ChannelReachable.init _) _) _) _)).1,
   ((single_default_invariant _
      (ChannelReachable.step (ChannelReachable.step (ChannelReachable.step
        (ChannelReachable.step ChannelReachable.init _) _) _) _)).2 1).1⟩

/-- The attempted ids of a fetch form an initial segment of the trial
order's ids. -/
theorem fetchAttempts_initial (att : Nat → Bool) :
    ∀ l : List DSBinding, (fetchAttempts att l).1 <+: l.map (fun b => b.id) := by
  intro l
  induction l with
  | nil => simp [fetchAttempts]
  | cons b rest ih =>
    by_cases hb : att b.id
    · refine ⟨rest.map (fun b => b.id), ?_⟩
      simp [fetchAttempts, hb]
    · obtain ⟨t, ht⟩ := ih
      refine ⟨t, ?_⟩
      simp only [fetchAttempts, hb, if_neg, Bool.false_eq_true, if_false, List.map_cons]
      rw [List.cons_append, ht]

/-- Every attempted provider before the last one failed: a candidate is
only reached after all earlier candidates in the trial order failed. -/
theorem fetchAttempts_earlier_failed (att : Nat → Bool) :
    ∀ l : List DSBinding, ∀ x ∈ (fetchAttempts att l).1.dropLast, att x = false := by
  intro l
  induction l with
  | nil => intro x hx; simp [fetchAttempts] at hx
  | cons b rest ih =>
    intro x hx
    by_cases hb : att b.id
    · simp [fetchAttempts, hb] at hx
    · simp only [fetchAttempts, hb, if_neg, Bool.false_eq_true, if_false] at hx
      rcases htr : (fetchAttempts att rest).1 with _ | ⟨y, ys⟩
      · rw [htr] at hx
        simp at hx
      · rw [htr, List.dropLast_cons₂] at hx
        rcases List.mem_cons.1 hx with hxb | hxtail
        · rw [hxb]
          exact Bool.not_eq_true _ ▸ eq_false_of_ne_true hb
        · exact ih x (htr ▸ hxtail)

/-- Trial order contains exactly the enabled bindings of the requested
type. -/
theorem trialOrder_mem (bs : List DSBinding) (ty : DSType) :
    ∀ b, b ∈ trialOrder bs ty ↔ (b ∈ bs ∧ b.enabled = true ∧ b.dstype = ty) := by
  intro b
  rw [trialOrder, (List.perm_insertionSort bindingLE _).mem_iff, List.mem_filter]
  simp

/-- C4: a fetch consults only enabled bindings of the requested type, in
ascending priority order with ties broken by binding id; attempted
providers form an initial segment of that order and every provider before
the last attempted one failed.  In the spec's scenario (disabled A,
enabled B and C), B is tried first, C only on B's failure, and A never. -/
theorem router_priority_fallback (bs : List DSBinding) (ty : DSType) (att : Nat → Bool) :
    (∀ b ∈ trialOrder bs ty, b ∈ bs ∧ b.enabled = true ∧ b.dstype = ty) ∧
    List.Sorted bindingLE (trialOrder bs ty) ∧
    (routerFetch bs ty att).1 <+: (trialOrder bs ty).map (fun b => b.id) ∧
    (∀ x ∈ (routerFetch bs ty att).1.dropLast, att x = false) ∧
    trialOrder [dsA, dsB, dsC] DSType.news = [dsB, dsC] ∧
    (att 2 = true → routerFetch [dsA, dsB, dsC] DSType.news att = ([2], true)) ∧
    (att 2 = false →
        (routerFetch [dsA, dsB, dsC] DSType.news att).1 = [2, 3]) ∧
    1 ∉ (routerFetch [dsA, dsB, dsC] DSType.news att).1 := by
  have habc : trialOrder [dsA, dsB, dsC] DSType.news = [dsB, dsC] := by decide
  refine ⟨fun b hb => (trialOrder_mem bs ty b).1 hb,
    List.sorted_insertionSort bindingLE _,
    fetchAttempts_initial att _,
    fetchAttempts_earlier_failed att _,
    habc, ?_, ?_, ?_⟩
  · intro h2
    rw [routerFetch, habc]
    simp [fetchAttempts, dsB, h2]
  · intro h2
    rw [routerFetch, habc]
    by_cases h3 : att 3 <;> simp [fetchAttempts, dsB, dsC, h2, h3]
  · intro hmem
    rw [routerFetch, habc] at hmem
    by_cases h2 : att 2
    · simp [fetchAttempts, dsB, dsC, h2] at hmem
    · by_cases h3 : att 3 <;> simp [fetchAttempts, dsB, dsC, h2, h3] at hmem

/-- Witness for C4: the scenario run with both oracle outcomes for B. -/
theorem router_priority_fallback_witness :
    routerFetch [dsA, dsB, dsC] DSType.news (fun n => decide (n = 2)) = ([2], true) ∧
    (routerFetch [dsA, dsB, dsC] DSType.news (fun _ => false)).1 = [2, 3] :=
  ⟨(router_priority_fallback [dsA, dsB, dsC] DSType.news
      (fun n => decide (n = 2))).2.2.2.2.2.1 (by decide),
   (router_priority_fallback [dsA, dsB, dsC] DSType.news
      (fun _ => false)).2.2.2.2.2.2.1 rfl⟩

/-- Any non-empty schedule string is either recognised as one of the
friendly shapes or kept verbatim in a type-cron config. -/
theorem parseCronToConfig_cases (s : String) (hne : ¬ s = "") :
    (parseCronToConfig s).type ≠ ScheduleType.cron ∨
    parseCronToConfig s = ⟨ScheduleType.cron, none, none, some s⟩ := by
  rw [parseCronToConfig, if_neg hne]
  repeat' split
  all_goals simp

/-- C5 counterexample: malformed or empty schedule expressions are not
surfaced as errors — the empty expression is silently replaced by the
default daily-15:30 configuration (serialising to `30 15 * * *`, with an
empty custom-cron value serialising to `0 15 * * *`), the malformed
`*/0 * * * *` (a zero step is not a valid schedule) is silently serialised
to the default `*/30 * * * *`, and the malformed `*/5x * * * *` is
silently truncated to `*/5 * * * *`. -/
theorem malformed_schedule_silently_defaulted :
    parseCronToConfig "" = ⟨ScheduleType.daily, some "15:30", none, none⟩ ∧
    configToCron (parseCronToConfig "") = "30 15 * * *" ∧
    configToCron ⟨ScheduleType.cron, none, none, some ""⟩ = "0 15 * * *" ∧
    validCronStr "*/0 * * * *" = false ∧
    configToCron (parseCronToConfig "*/0 * * * *") = "*/30 * * * *" ∧
    validCronStr "*/5x * * * *" = false ∧
    configToCron (parseCronToConfig "*/5x * * * *") = "*/5 * * * *" := by
  refine ⟨rfl, ?_, ?_, ?_, ?_, ?_, ?_⟩ <;> decide

/-- C5 (amended): a malformed expression that `parseCronToConfig`
classifies as a custom type-cron configuration — every non-empty string it
does not recognise as a friendly daily/weekdays/interval shape — is never
replaced by a default: it is preserved verbatim and re-serialises to
exactly itself.  Outside that classification no error is surfaced either;
instead the expression is silently rewritten (empty becomes the daily
15:30 default, a `*/0` minute becomes the `*/30` default, a `*/N`-prefixed
minute with trailing junk is truncated), as the counterexample records. -/
theorem malformed_schedule_preserved (s : String) (hne : s ≠ "")
    (h : (parseCronToConfig s).type = ScheduleType.cron) :
    (parseCronToConfig s).cron = some s ∧ configToCron (parseCronToConfig s) = s := by
  rcases parseCronToConfig_cases s hne with hc | hc
  · exact absurd h hc
  · rw [hc]
    refine ⟨rfl, ?_⟩
    show orDefaultStr (some s) "0 15 * * *" = s
    simp [orDefaultStr, hne]

/-- Witness for C5 (amended) at a concrete malformed expression. -/
theorem malformed_schedule_preserved_witness :
    (parseCronToConfig "every monday").cron = some "every monday" ∧
    configToCron (parseCronToConfig "every monday") = "every monday" :=
  malformed_schedule_preserved "every monday" (by decide) (by decide)

/-! ## Digit-string lemmas for the round-trip analysis -/

/-- Code of the digit character of `n < 10`. -/
theorem digitChar_toNat {n : Nat} (h : n < 10) : (digitChar n).toNat = 48 + n := by
  interval_cases n <;> decide

/-- The digit character of `n < 10` is a digit. -/
theorem digitChar_isDigit {n : Nat} (h : n < 10) : (digitChar n).isDigit = true := by
  interval_cases n <;> decide

/-- Value of a digit list extended on the right. -/
theorem digitsVal_append_singleton (l : List Char) (c : Char) :
    digitsVal (l ++ [c]) = digitsVal l * 10 + (c.toNat - 48) := by
  simp [digitsVal, List.foldl_append]

/-- A leading zero does not change the value of a digit list. -/
theorem digitsVal_cons_zero (l : List Char) : digitsVal ('0' :: l) = digitsVal l := by
  have h0 : (0 * 10 + (Char.toNat '0' - 48)) = 0 := by decide
  show List.foldl _ (0 * 10 + (Char.toNat '0' - 48)) l = List.foldl _ 0 l
  rw [h0]

/-- With sufficient fuel, the decimal writer emits a non-empty digit list
whose value is the written number. -/
theorem natToCharsAux_spec : ∀ (fuel n : Nat), n < fuel →
    natToCharsAux fuel n ≠ [] ∧ (natToCharsAux fuel n).all Char.isDigit = true ∧
    digitsVal (natToCharsAux fuel n) = n := by
  intro fuel
  induction fuel with
  | zero => intro n h; omega
  | succ fuel ih =>
    intro n h
    by_cases h10 : n < 10
    · simp only [natToCharsAux, h10, if_pos]
      refine ⟨by simp, by simp [digitChar_isDigit h10], ?_⟩
      simp [digitsVal, digitChar_toNat h10]
    · simp only [natToCharsAux, h10, if_neg, if_false]
      have hrec : n / 10 < fuel := by
        have := Nat.div_lt_self (show 0 < n by omega) (show 1 < 10 by omega)
        omega
      obtain ⟨hne, hall, hval⟩ := ih (n / 10) hrec
      have hmod : n % 10 < 10 := Nat.mod_lt n (by omega)
      refine ⟨by simp, ?_, ?_⟩
      · rw [List.all_append]
        simp [hall, digitChar_isDigit hmod]
      · rw [digitsVal_append_singleton, hval, digitChar_toNat hmod]
        omega

/-- The decimal digits of a natural number: non-empty, all digits, value
round-trips. -/
theorem natToChars_spec (n : Nat) :
    natToChars n ≠ [] ∧ (natToChars n).all Char.isDigit = true ∧
    digitsVal (natToChars n) = n :=
  natToCharsAux_spec (n + 1) n (by omega)

/-- A digit character is none of the structural characters of a schedule
string. -/
theorem isDigit_ne_special {c : Char} (h : c.isDigit = true) :
    c ≠ '*' ∧ c ≠ '-' ∧ c ≠ '+' ∧ c ≠ ':' ∧ c ≠ ' ' ∧ c ≠ '/' := by
  refine ⟨?_, ?_, ?_, ?_, ?_, ?_⟩ <;> (intro hc; rw [hc] at h; exact absurd h (by decide))

/-- An all-digit list is its own longest digit prefix. -/
theorem leadingDigits_all (l : List Char) (h : l.all Char.isDigit = true) :
    leadingDigits l = l := by
  induction l with
  | nil => rfl
  | cons c cs ih =>
    rw [List.all_cons, Bool.and_eq_true] at h
    simp [leadingDigits, h.1, ih h.2]

/-- Parsing a non-empty all-digit string yields its value. -/
theorem jsParseInt_numeral (l : List Char) (hne : l ≠ [])
    (hall : l.all Char.isDigit = true) :
    jsParseInt (String.mk l) = some (Int.ofNat (digitsVal l)) := by
  rcases l with _ | ⟨c, cs⟩
  · exact absurd rfl hne
  · have hc : c.isDigit = true := by
      rw [List.all_cons, Bool.and_eq_true] at hall
      exact hall.1
    obtain ⟨_, hminus, hplus, _, _, _⟩ := isDigit_ne_special hc
    show jsParseInt (String.mk (c :: cs)) = _
    simp only [jsParseInt]
    rw [if_neg hminus, if_neg hplus, leadingDigits_all _ hall]
    simp

/-- Concatenation of literal strings at the character level. -/
theorem mk_append_mk (a b : List Char) :
    String.mk a ++ String.mk b = String.mk (a ++ b) := rfl

/-- Data of a string concatenation. -/
theorem data_append (a b : String) : (a ++ b).data = a.data ++ b.data := rfl

/-- A separator-free list is returned whole by the keep-empties splitter. -/
theorem splitCharAux_no_sep (sep : Char) :
    ∀ (l acc : List Char), (∀ c ∈ l, c ≠ sep) →
      splitCharAux sep l acc = [acc.reverse ++ l] := by
  intro l
  induction l with
  | nil => intro acc _; simp [splitCharAux]
  | cons c cs ih =>
    intro acc h
    have hc : ¬ c = sep := h c (List.mem_cons_self c cs)
    simp only [splitCharAux, if_neg hc]
    rw [ih (c :: acc) (fun x hx => h x (List.mem_cons_of_mem c hx))]
    simp

/-- Splitting at the first separator occurrence. -/
theorem splitCharAux_found (sep : Char) :
    ∀ (x y acc : List Char), (∀ c ∈ x, c ≠ sep) →
      splitCharAux sep (x ++ sep :: y) acc
        = (acc.reverse ++ x) :: splitCharAux sep y [] := by
  intro x
  induction x with
  | nil => intro y acc _; simp [splitCharAux]
  | cons c cs ih =>
    intro y acc h
    have hc : ¬ c = sep := h c (List.mem_cons_self c cs)
    simp only [List.cons_append, splitCharAux, if_neg hc, List.append_eq]
    rw [ih y (c :: acc) (fun u hu => h u (List.mem_cons_of_mem c hu))]
    simp

/-- The run splitter consumes a separator-free token into its accumulator. -/
theorem splitRunsAux_token (p : Char → Bool) :
    ∀ (t cs acc : List Char), (∀ c ∈ t, p c = false) →
      splitRunsAux p (t ++ cs) acc = splitRunsAux p cs (t.reverse ++ acc) := by
  intro t
  induction t with
  | nil => intro cs acc _; simp
  | cons c ts ih =>
    intro cs acc h
    have hc : p c = false := h c (List.mem_cons_self c ts)
    simp only [List.cons_append, splitRunsAux, hc, Bool.false_eq_true, if_false,
      List.append_eq]
    rw [ih cs (c :: acc) (fun u hu => h u (List.mem_cons_of_mem c hu))]
    simp

/-- The run splitter inverts single-separator joins of non-empty,
separator-free tokens. -/
theorem splitRunsAux_joinSep (p : Char → Bool) (sep : Char) (hsep : p sep = true) :
    ∀ ts : List (List Char), (∀ t ∈ ts, t ≠ [] ∧ ∀ c ∈ t, p c = false) →
      splitRunsAux p (joinSep sep ts) [] = ts := by
  intro ts
  induction ts with
  | nil => intro _; rfl
  | cons t ts ih =>
    intro h
    obtain ⟨hne, hfree⟩ := h t (List.mem_cons_self t ts)
    rcases ts with _ | ⟨t2, ts'⟩
    · show splitRunsAux p t [] = [t]
      have htok := splitRunsAux_token p t [] [] hfree
      rw [List.append_nil] at htok
      rw [htok]
      simp only [splitRunsAux, List.append_nil]
      rw [if_neg (by simpa using hne)]
      simp
    · show splitRunsAux p (t ++ sep :: joinSep sep (t2 :: ts')) [] = t :: t2 :: ts'
      rw [splitRunsAux_token p t _ [] hfree, List.append_nil]
      simp only [splitRunsAux, hsep, if_pos]
      rw [if_neg (by simpa using hne)]
      rw [ih (fun u hu => h u (List.mem_cons_of_mem t hu))]
      simp

/-- Left-padding a short digit string preserves non-emptiness, digits and
value. -/
theorem pad2_spec (l : List Char) (hne : l ≠ []) (hall : l.all Char.isDigit = true) :
    (pad2 (String.mk l)).data ≠ [] ∧
    (pad2 (String.mk l)).data.all Char.isDigit = true ∧
    digitsVal ((pad2 (String.mk l)).data) = digitsVal l := by
  have hdat : (String.mk l).data = l := rfl
  by_cases hlen : (String.mk l).data.length < 2
  · have hlen' : l.length < 2 := by rw [hdat] at hlen; exact hlen
    have h1 : l.length = 1 := by
      rcases l with _ | ⟨c, _ | ⟨d, cs⟩⟩
      · exact absurd rfl hne
      · rfl
      · exfalso
        simp at hlen'
        omega
    rw [pad2, if_pos hlen]
    have h2 : (2 - (String.mk l).data.length) = 1 := by
      rw [hdat, h1]
    rw [h2]
    rw [mk_append_mk]
    simp only [List.replicate, List.singleton_append]
    refine ⟨by simp, ?_, digitsVal_cons_zero l⟩
    rw [List.all_cons, Bool.and_eq_true]
    exact ⟨by decide, hall⟩
  · rw [pad2, if_neg hlen]
    exact ⟨hne, hall, rfl⟩

/-- A non-empty all-digit token parses as a fixed-value cron field. -/
theorem parseFieldChars_numeral (l : List Char) (hne : l ≠ [])
    (hall : l.all Char.isDigit = true) :
    parseFieldChars l = some (CronField.num (digitsVal l)) := by
  have hdig : ∀ c ∈ l, c.isDigit = true := by
    rw [List.all_eq_true] at hall
    intro c hc
    exact hall c hc
  have hstar : l ≠ ['*'] := by
    intro heq
    rw [heq] at hall
    exact absurd hall (by decide)
  have htake : ¬ l.take 2 = ['*', '/'] := by
    intro heq
    rcases l with _ | ⟨c, cs⟩
    · exact hne rfl
    · have hc := hdig c (List.mem_cons_self c cs)
      have : c = '*' := by
        have := congrArg (fun x => x.head?) heq
        simpa using this
      exact (isDigit_ne_special hc).1 this
  rw [parseFieldChars, if_neg hstar, if_neg htake]
  have hdash : ∀ c ∈ l, c ≠ '-' := fun c hc => (isDigit_ne_special (hdig c hc)).2.1
  rw [splitCharAux_no_sep '-' l [] hdash]
  simp [hne, hall]

/-- A well-formed `*/N` token parses as a step field. -/
theorem parseFieldChars_step (rest : List Char) (hne : rest ≠ [])
    (hall : rest.all Char.isDigit = true) (hnz : digitsVal rest ≠ 0) :
    parseFieldChars ('*' :: '/' :: rest) = some (CronField.step (digitsVal rest)) := by
  have hstar : ('*' :: '/' :: rest) ≠ ['*'] := by simp
  rw [parseFieldChars, if_neg hstar, if_pos (by rfl)]
  simp [hne, hall, hnz]

/-- A numeral token does not start with the interval marker. -/
theorem numeral_not_starslash (mi : String) (hmi : mi.data ≠ [])
    (hall : mi.data.all Char.isDigit = true) : startsWithStarSlash mi = false := by
  simp only [startsWithStarSlash, decide_eq_false_iff_not]
  intro heq
  rcases hd : mi.data with _ | ⟨c, cs⟩
  · exact hmi hd
  · rw [hd] at heq hall
    rw [List.all_cons, Bool.and_eq_true] at hall
    have hcstar : c = '*' := by
      have := congrArg List.head? heq
      simpa using this
    exact (isDigit_ne_special hall.1).1 hcstar

/-- Parsing a non-empty all-digit string, stated on the string itself. -/
theorem jsParseInt_numeral₂ (t : String) (hne : t.data ≠ [])
    (hall : t.data.all Char.isDigit = true) :
    jsParseInt t = some (Int.ofNat (digitsVal t.data)) :=
  jsParseInt_numeral t.data hne hall

/-- Evaluation of `parseCronToConfig` on a five-field string with numeral
minute and hour tokens. -/
theorem parseCronToConfig_numeral_eval (s mi h d mo dw : String)
    (hsw : splitWs s = [mi, h, d, mo, dw])
    (hmi : mi.data ≠ []) (hmiall : mi.data.all Char.isDigit = true)
    (hh : h.data ≠ []) (hhall : h.data.all Char.isDigit = true) :
    parseCronToConfig s
      = (if dw = "1-5" then
          (⟨ScheduleType.weekdays,
            some (pad2 (String.mk (natToChars (digitsVal h.data))) ++ ":" ++
              pad2 (String.mk (natToChars (digitsVal mi.data)))), none, none⟩ : ScheduleConfig)
         else if dw = "*" then
          ⟨ScheduleType.daily,
            some (pad2 (String.mk (natToChars (digitsVal h.data))) ++ ":" ++
              pad2 (String.mk (natToChars (digitsVal mi.data)))), none, none⟩
         else ⟨ScheduleType.cron, none, none, some s⟩) := by
  have hne : ¬ s = "" := by
    intro h0
    rw [h0] at hsw
    simp [splitWs, splitRuns, splitRunsAux] at hsw
  rw [parseCronToConfig, if_neg hne, hsw]
  simp only [numeral_not_starslash mi hmi hmiall, Bool.false_eq_true, if_false,
    jsParseInt_numeral₂ mi hmi hmiall, jsParseInt_numeral₂ h hh hhall]
  rfl

/-- Evaluation of `parseCronToConfig` on a five-field string whose minute
token is a well-formed `*/N`. -/
theorem parseCronToConfig_interval_eval (s mi h d mo dw : String)
    (hsw : splitWs s = [mi, h, d, mo, dw])
    (htake : mi.data.take 2 = ['*', '/'])
    (hrest : mi.data.drop 2 ≠ [])
    (hall : (mi.data.drop 2).all Char.isDigit = true) :
    parseCronToConfig s
      = ⟨ScheduleType.interval, none,
          some (Int.ofNat (digitsVal (mi.data.drop 2))), none⟩ := by
  have hne : ¬ s = "" := by
    intro h0
    rw [h0] at hsw
    simp [splitWs, splitRuns, splitRunsAux] at hsw
  have hss : startsWithStarSlash mi = true := by
    simp only [startsWithStarSlash, decide_eq_true_eq]
    exact htake
  have hslice : jsParseInt (slice2 mi) = some (Int.ofNat (digitsVal (mi.data.drop 2))) :=
    jsParseInt_numeral (mi.data.drop 2) hrest hall
  rw [parseCronToConfig, if_neg hne, hsw]
  simp only [hss, if_true, hslice]

/-- Whitespace tokenisation inverts single-space joins of non-empty,
space-free tokens. -/
theorem splitWs_joinSep (ts : List (List Char))
    (h : ∀ t ∈ ts, t ≠ [] ∧ ∀ c ∈ t, c ≠ ' ') :
    splitWs (String.mk (joinSep ' ' ts)) = ts.map String.mk := by
  show (splitRunsAux (fun c => c = ' ') (String.mk (joinSep ' ' ts)).data []).map String.mk = _
  have hd : (String.mk (joinSep ' ' ts)).data = joinSep ' ' ts := rfl
  rw [hd, splitRunsAux_joinSep _ ' ' (by simp) ts ?_]
  intro t ht
  refine ⟨(h t ht).1, fun c hc => ?_⟩
  simpa using (h t ht).2 c hc

/-- Character-level splitting of the `HH:MM` string `configToCron`
reconstructs. -/
theorem configToCron_time_parts (mv hv : Nat) :
    splitChar ':' (orDefaultStr (some (pad2 (String.mk (natToChars hv)) ++ ":" ++
        pad2 (String.mk (natToChars mv)))) "15:30")
      = [pad2 (String.mk (natToChars hv)), pad2 (String.mk (natToChars mv))] := by
  obtain ⟨hne1, hall1, _⟩ := natToChars_spec hv
  obtain ⟨hne2, hall2, _⟩ := natToChars_spec mv
  obtain ⟨hpne1, hpall1, _⟩ := pad2_spec _ hne1 hall1
  obtain ⟨hpne2, hpall2, _⟩ := pad2_spec _ hne2 hall2
  have hAfree : ∀ c ∈ (pad2 (String.mk (natToChars hv))).data, c ≠ ':' := by
    rw [List.all_eq_true] at hpall1
    exact fun c hc => (isDigit_ne_special (hpall1 c hc)).2.2.2.1
  have hBfree : ∀ c ∈ (pad2 (String.mk (natToChars mv))).data, c ≠ ':' := by
    rw [List.all_eq_true] at hpall2
    exact fun c hc => (isDigit_ne_special (hpall2 c hc)).2.2.2.1
  have hdata : (pad2 (String.mk (natToChars hv)) ++ ":" ++
      pad2 (String.mk (natToChars mv))).data
      = (pad2 (String.mk (natToChars hv))).data ++ ':' ::
          (pad2 (String.mk (natToChars mv))).data := by
    rw [data_append, data_append]
    simp
  have htime_ne : ¬ (pad2 (String.mk (natToChars hv)) ++ ":" ++
      pad2 (String.mk (natToChars mv))) = "" := by
    intro h0
    have := congrArg String.data h0
    rw [hdata] at this
    simp at this
  have hor : orDefaultStr (some (pad2 (String.mk (natToChars hv)) ++ ":" ++
      pad2 (String.mk (natToChars mv)))) "15:30"
      = pad2 (String.mk (natToChars hv)) ++ ":" ++ pad2 (String.mk (natToChars mv)) := by
    simp only [orDefaultStr]
    rw [if_neg htime_ne]
  rw [hor]
  show (splitCharAux ':' _ []).map String.mk = _
  rw [hdata, splitCharAux_found ':' _ _ [] hAfree, splitCharAux_no_sep ':' _ [] hBfree]
  simp

/-- Evaluation of `configToCron` on a reconstructed daily configuration. -/
theorem configToCron_daily_eval (mv hv : Nat) :
    configToCron ⟨ScheduleType.daily,
        some (pad2 (String.mk (natToChars hv)) ++ ":" ++
          pad2 (String.mk (natToChars mv))), none, none⟩
      = String.mk (natToChars mv) ++ " " ++ String.mk (natToChars hv) ++ " * * *" := by
  obtain ⟨hne1, hall1, hval1⟩ := natToChars_spec hv
  obtain ⟨hne2, hall2, hval2⟩ := natToChars_spec mv
  obtain ⟨hpne1, hpall1, hpval1⟩ := pad2_spec _ hne1 hall1
  obtain ⟨hpne2, hpall2, hpval2⟩ := pad2_spec _ hne2 hall2
  show numToString (jsParseIntOpt ((splitChar ':' (orDefaultStr _ _)).get? 1)) ++ " " ++
      numToString (jsParseIntOpt ((splitChar ':' (orDefaultStr _ _)).get? 0)) ++ " * * *" = _
  rw [configToCron_time_parts mv hv]
  show numToString (jsParseInt (pad2 (String.mk (natToChars mv)))) ++ " " ++
      numToString (jsParseInt (pad2 (String.mk (natToChars hv)))) ++ " * * *" = _
  rw [jsParseInt_numeral₂ _ hpne2 hpall2, jsParseInt_numeral₂ _ hpne1 hpall1,
    hpval2, hpval1, hval2, hval1]
  rfl

/-- Evaluation of `configToCron` on a reconstructed weekdays configuration. -/
theorem configToCron_weekdays_eval (mv hv : Nat) :
    configToCron ⟨ScheduleType.weekdays,
        some (pad2 (String.mk (natToChars hv)) ++ ":" ++
          pad2 (String.mk (natToChars mv))), none, none⟩
      = String.mk (natToChars mv) ++ " " ++ String.mk (natToChars hv) ++ " * * 1-5" := by
  obtain ⟨hne1, hall1, hval1⟩ := natToChars_spec hv
  obtain ⟨hne2, hall2, hval2⟩ := natToChars_spec mv
  obtain ⟨hpne1, hpall1, hpval1⟩ := pad2_spec _ hne1 hall1
  obtain ⟨hpne2, hpall2, hpval2⟩ := pad2_spec _ hne2 hall2
  show numToString (jsParseIntOpt ((splitChar ':' (orDefaultStr _ _)).get? 1)) ++ " " ++
      numToString (jsParseIntOpt ((splitChar ':' (orDefaultStr _ _)).get? 0)) ++ " * * 1-5" = _
  rw [configToCron_time_parts mv hv]
  show numToString (jsParseInt (pad2 (String.mk (natToChars mv)))) ++ " " ++
      numToString (jsParseInt (pad2 (String.mk (natToChars hv)))) ++ " * * 1-5" = _
  rw [jsParseInt_numeral₂ _ hpne2 hpall2, jsParseInt_numeral₂ _ hpne1 hpall1,
    hpval2, hpval1, hval2, hval1]
  rfl

/-- Evaluation of `configToCron` on an interval configuration with a
non-zero minute step. -/
theorem configToCron_interval_eval (nv : Nat) (hnz : nv ≠ 0) :
    configToCron ⟨ScheduleType.interval, none, some (Int.ofNat nv), none⟩
      = "*/" ++ String.mk (natToChars nv) ++ " * * * *" := by
  have hz : ¬ (Int.ofNat nv) = 0 := by
    simpa using hnz
  show "*/" ++ (if (Int.ofNat nv) = 0 then "30" else intToString (Int.ofNat nv)) ++
      " * * * *" = _
  rw [if_neg hz]
  rfl

/-- The bound-checking field parser only depends on the token's parse. -/
theorem parseBoundedField_congr (lo hi : Nat) (t u : String)
    (h : parseFieldChars t.data = parseFieldChars u.data) :
    parseBoundedField lo hi t = parseBoundedField lo hi u := by
  rw [parseBoundedField, parseBoundedField, h]

/-- The cron parser, restated over the token list of the input. -/
theorem parseCron_tokens (mi h d mo dw s : String)
    (hsw : splitWs s = [mi, h, d, mo, dw]) :
    parseCron s
      = match parseBoundedField 0 59 mi, parseBoundedField 0 23 h,
            parseBoundedField 1 31 d, parseBoundedField 1 12 mo,
            parseBoundedField 0 6 dw with
        | some a, some b, some c, some e, some f => some ⟨a, b, c, e, f⟩
        | _, _, _, _, _ => none := by
  unfold parseCron
  rw [hsw]

/-- Round trip through the friendly config preserves the parsed schedule
for `M H * * *` / `M H * * 1-5` strings with numeral `M`, `H`. -/
theorem roundtrip_fixed_parseCron (s mi h dw : String)
    (hsw : splitWs s = [mi, h, "*", "*", dw])
    (hmi : mi.data ≠ []) (hmiall : mi.data.all Char.isDigit = true)
    (hh : h.data ≠ []) (hhall : h.data.all Char.isDigit = true)
    (hdw : dw = "*" ∨ dw = "1-5") :
    parseCron (configToCron (parseCronToConfig s)) = parseCron s := by
  obtain ⟨hnm, ham, hvm⟩ := natToChars_spec (digitsVal mi.data)
  obtain ⟨hnh, hah, hvh⟩ := natToChars_spec (digitsVal h.data)
  have hm_free : ∀ c ∈ natToChars (digitsVal mi.data), c ≠ ' ' := by
    rw [List.all_eq_true] at ham
    exact fun c hc => (isDigit_ne_special (ham c hc)).2.2.2.2.1
  have hh_free : ∀ c ∈ natToChars (digitsVal h.data), c ≠ ' ' := by
    rw [List.all_eq_true] at hah
    exact fun c hc => (isDigit_ne_special (hah c hc)).2.2.2.2.1
  have e1 : parseBoundedField 0 59 (String.mk (natToChars (digitsVal mi.data)))
      = parseBoundedField 0 59 mi := by
    apply parseBoundedField_congr
    show parseFieldChars (natToChars (digitsVal mi.data)) = _
    rw [parseFieldChars_numeral _ hnm ham, parseFieldChars_numeral _ hmi hmiall, hvm]
  have e2 : parseBoundedField 0 23 (String.mk (natToChars (digitsVal h.data)))
      = parseBoundedField 0 23 h := by
    apply parseBoundedField_congr
    show parseFieldChars (natToChars (digitsVal h.data)) = _
    rw [parseFieldChars_numeral _ hnh hah, parseFieldChars_numeral _ hh hhall, hvh]
  rcases hdw with hdw | hdw
  · subst hdw
    rw [parseCronToConfig_numeral_eval s mi h _ _ _ hsw hmi hmiall hh hhall]
    rw [if_neg (show ¬ ("*" : String) = "1-5" by decide), if_pos rfl]
    rw [configToCron_daily_eval]
    have hd : (String.mk (natToChars (digitsVal mi.data)) ++ " " ++
        String.mk (natToChars (digitsVal h.data)) ++ " * * *").data
        = joinSep ' ' [natToChars (digitsVal mi.data), natToChars (digitsVal h.data),
            ['*'], ['*'], ['*']] := by
      have d2 : (" * * *" : String).data = [' ', '*', ' ', '*', ' ', '*'] := rfl
      simp [data_append, joinSep, d2]
    have hout : (String.mk (natToChars (digitsVal mi.data)) ++ " " ++
        String.mk (natToChars (digitsVal h.data)) ++ " * * *")
        = String.mk (joinSep ' ' [natToChars (digitsVal mi.data),
            natToChars (digitsVal h.data), ['*'], ['*'], ['*']]) := by
      conv_lhs => rw [show (String.mk (natToChars (digitsVal mi.data)) ++ " " ++
        String.mk (natToChars (digitsVal h.data)) ++ " * * *")
          = String.mk ((String.mk (natToChars (digitsVal mi.data)) ++ " " ++
            String.mk (natToChars (digitsVal h.data)) ++ " * * *")).data from rfl]
      rw [hd]
    have hswout : splitWs (String.mk (joinSep ' ' [natToChars (digitsVal mi.data),
        natToChars (digitsVal h.data), ['*'], ['*'], ['*']]))
        = [String.mk (natToChars (digitsVal mi.data)),
           String.mk (natToChars (digitsVal h.data)), "*", "*", "*"] := by
      rw [splitWs_joinSep]
      · rfl
      · intro t ht
        simp only [List.mem_cons, List.not_mem_nil, or_false] at ht
        rcases ht with rfl | rfl | rfl | rfl | rfl
        · exact ⟨hnm, hm_free⟩
        · exact ⟨hnh, hh_free⟩
        all_goals exact ⟨by simp, by intro c hc; simp at hc; rw [hc]; decide⟩
    rw [hout, parseCron_tokens _ _ _ _ _ _ hswout, parseCron_tokens _ _ _ _ _ _ hsw]
    rw [e1, e2]
  · subst hdw
    rw [parseCronToConfig_numeral_eval s mi h _ _ _ hsw hmi hmiall hh hhall]
    rw [if_pos rfl]
    rw [configToCron_weekdays_eval]
    have hd : (String.mk (natToChars (digitsVal mi.data)) ++ " " ++
        String.mk (natToChars (digitsVal h.data)) ++ " * * 1-5").data
        = joinSep ' ' [natToChars (digitsVal mi.data), natToChars (digitsVal h.data),
            ['*'], ['*'], ['1', '-', '5']] := by
      have d2 : (" * * 1-5" : String).data
          = [' ', '*', ' ', '*', ' ', '1', '-', '5'] := rfl
      simp [data_append, joinSep, d2]
    have hout : (String.mk (natToChars (digitsVal mi.data)) ++ " " ++
        String.mk (natToChars (digitsVal h.data)) ++ " * * 1-5")
        = String.mk (joinSep ' ' [natToChars (digitsVal mi.data),
            natToChars (digitsVal h.data), ['*'], ['*'], ['1', '-', '5']]) := by
      conv_lhs => rw [show (String.mk (natToChars (digitsVal mi.data)) ++ " " ++
        String.mk (natToChars (digitsVal h.data)) ++ " * * 1-5")
          = String.mk ((String.mk (natToChars (digitsVal mi.data)) ++ " " ++
            String.mk (natToChars (digitsVal h.data)) ++ " * * 1-5")).data from rfl]
      rw [hd]
    have hswout : splitWs (String.mk (joinSep ' ' [natToChars (digitsVal mi.data),
        natToChars (digitsVal h.data), ['*'], ['*'], ['1', '-', '5']]))
        = [String.mk (natToChars (digitsVal mi.data)),
           String.mk (natToChars (digitsVal h.data)), "*", "*", "1-5"] := by
      rw [splitWs_joinSep]
      · rfl
      · intro t ht
        simp only [List.mem_cons, List.not_mem_nil, or_false] at ht
        rcases ht with rfl | rfl | rfl | rfl | rfl
        · exact ⟨hnm, hm_free⟩
        · exact ⟨hnh, hh_free⟩
        · exact ⟨by simp, by intro c hc; simp at hc; rw [hc]; decide⟩
        · exact ⟨by simp, by intro c hc; simp at hc; rw [hc]; decide⟩
        · refine ⟨by simp, ?_⟩
          intro c hc
          simp only [List.mem_cons, List.not_mem_nil, or_false] at hc
          rcases hc with rfl | rfl | rfl <;> decide
    rw [hout, parseCron_tokens _ _ _ _ _ _ hswout, parseCron_tokens _ _ _ _ _ _ hsw]
    rw [e1, e2]

/-- Round trip through the friendly config preserves the parsed schedule
for `*/N * * * *` strings. -/
theorem roundtrip_interval_parseCron (s mi : String)
    (hsw : splitWs s = [mi, "*", "*", "*", "*"])
    (htake : mi.data.take 2 = ['*', '/'])
    (hrest : mi.data.drop 2 ≠ [])
    (hall : (mi.data.drop 2).all Char.isDigit = true)
    (hnz : digitsVal (mi.data.drop 2) ≠ 0) :
    parseCron (configToCron (parseCronToConfig s)) = parseCron s := by
  obtain ⟨hnn, han, hvn⟩ := natToChars_spec (digitsVal (mi.data.drop 2))
  have hmid : mi.data = '*' :: '/' :: mi.data.drop 2 := by
    rcases hdm : mi.data with _ | ⟨c1, _ | ⟨c2, rest⟩⟩
    · rw [hdm] at htake; simp at htake
    · rw [hdm] at htake; simp at htake
    · rw [hdm] at htake
      simp only [List.take, List.cons.injEq] at htake
      obtain ⟨h1, h2, _⟩ := htake
      rw [h1, h2]
      rfl
  have e1 : parseBoundedField 0 59 (String.mk ('*' :: '/' ::
      natToChars (digitsVal (mi.data.drop 2)))) = parseBoundedField 0 59 mi := by
    apply parseBoundedField_congr
    show parseFieldChars ('*' :: '/' :: natToChars (digitsVal (mi.data.drop 2))) = _
    rw [parseFieldChars_step _ hnn han (by rw [hvn]; exact hnz)]
    conv_rhs => rw [hmid]
    rw [parseFieldChars_step _ hrest hall hnz, hvn]
  rw [parseCronToConfig_interval_eval s mi _ _ _ _ hsw htake hrest hall]
  rw [configToCron_interval_eval _ hnz]
  have hn_free : ∀ c ∈ natToChars (digitsVal (mi.data.drop 2)), c ≠ ' ' := by
    rw [List.all_eq_true] at han
    exact fun c hc => (isDigit_ne_special (han c hc)).2.2.2.2.1
  have hd : ("*/" ++ String.mk (natToChars (digitsVal (mi.data.drop 2))) ++ " * * * *").data
      = joinSep ' ' [('*' :: '/' :: natToChars (digitsVal (mi.data.drop 2))),
          ['*'], ['*'], ['*'], ['*']] := by
    have d1 : ("*/" : String).data = ['*', '/'] := rfl
    have d2 : (" * * * *" : String).data = [' ', '*', ' ', '*', ' ', '*', ' ', '*'] := rfl
    simp [data_append, joinSep, d1, d2]
  have hout : ("*/" ++ String.mk (natToChars (digitsVal (mi.data.drop 2))) ++ " * * * *")
      = String.mk (joinSep ' ' [('*' :: '/' :: natToChars (digitsVal (mi.data.drop 2))),
          ['*'], ['*'], ['*'], ['*']]) := by
    conv_lhs => rw [show ("*/" ++ String.mk (natToChars (digitsVal (mi.data.drop 2))) ++
        " * * * *")
        = String.mk (("*/" ++ String.mk (natToChars (digitsVal (mi.data.drop 2))) ++
          " * * * *")).data from rfl]
    rw [hd]
  have hswout : splitWs (String.mk (joinSep ' '
      [('*' :: '/' :: natToChars (digitsVal (mi.data.drop 2))), ['*'], ['*'], ['*'], ['*']]))
      = [String.mk ('*' :: '/' :: natToChars (digitsVal (mi.data.drop 2))),
         "*", "*", "*", "*"] := by
    rw [splitWs_joinSep]
    · rfl
    · intro t ht
      simp only [List.mem_cons, List.not_mem_nil, or_false] at ht
      rcases ht with rfl | rfl | rfl | rfl | rfl
      · refine ⟨by simp, ?_⟩
        intro c hc
        simp only [List.mem_cons] at hc
        rcases hc with rfl | rfl | hc
        · decide
        · decide
        · exact hn_free c hc
      all_goals exact ⟨by simp, by intro c hc; simp at hc; rw [hc]; decide⟩
  rw [hout, parseCron_tokens _ _ _ _ _ _ hswout, parseCron_tokens _ _ _ _ _ _ hsw]
  rw [e1]

/-- C1 counterexample: the valid five-field string `0 15 1 * *` (15:00 on
the first day of each month) re-serialises through the friendly config to
`0 15 * * *`, which is due on the second of January at 15:00 while the
original is not — the round trip is not due-equivalent. -/
theorem cron_roundtrip_counterexample :
    validCronStr "0 15 1 * *" = true ∧
    configToCron (parseCronToConfig "0 15 1 * *") = "0 15 * * *" ∧
    isDueStr "0 15 1 * *" ⟨0, 15, 2, 1, 4⟩ = false ∧
    isDueStr (configToCron (parseCronToConfig "0 15 1 * *")) ⟨0, 15, 2, 1, 4⟩ = true := by
  refine ⟨?_, ?_, ?_, ?_⟩ <;> decide

/-- C1 (amended): parse-then-reserialise is due-equivalent for every valid
five-field string that `parseCronToConfig` classifies as a custom `cron`
config (there the round trip is the identity), and for the exactly
representable friendly shapes `M H * * *`, `M H * * 1-5` (numeral `M`, `H`)
and `*/N * * * *`; a recognised shape carrying any further restriction
(day-of-month, month, hour ranges, or restricted fields beside a `*/N`
minute) loses that restriction, as the counterexample shows. -/
theorem cron_roundtrip_amended (s : String) (_hv : validCronStr s = true)
    (hcase : (parseCronToConfig s).type = ScheduleType.cron ∨ friendlyShape s = true) :
    cronEquiv s (configToCron (parseCronToConfig s)) := by
  rcases hcase with hcron | hshape
  · have hne : s ≠ "" := by
      intro h0
      rw [h0] at hcron
      exact absurd hcron (by decide)
    rcases parseCronToConfig_cases s hne with hc | hc
    · exact absurd hcron hc
    · rw [hc]
      have hid : configToCron ⟨ScheduleType.cron, none, none, some s⟩ = s := by
        show orDefaultStr (some s) "0 15 * * *" = s
        simp [orDefaultStr, hne]
      rw [hid]
      intro t
      rfl
  · have key : parseCron (configToCron (parseCronToConfig s)) = parseCron s := by
      unfold friendlyShape at hshape
      split at hshape
      next mi h d mo dw hsw =>
        rw [decide_eq_true_eq] at hshape
        rcases hshape with ⟨hminum, hhnum, hd, hmo, hdw⟩ | ⟨hint, hh, hd, hmo, hdw⟩
        · subst hd
          subst hmo
          simp only [isNumeralTok, decide_eq_true_eq] at hminum hhnum
          exact roundtrip_fixed_parseCron s mi h dw hsw hminum.1 hminum.2
            hhnum.1 hhnum.2 hdw
        · subst hh
          subst hd
          subst hmo
          subst hdw
          simp only [intervalTok, decide_eq_true_eq] at hint
          exact roundtrip_interval_parseCron s mi hsw hint.1 hint.2.1 hint.2.2.1 hint.2.2.2
      next => simp at hshape
    intro t
    show isDueStr s t = isDueStr (configToCron (parseCronToConfig s)) t
    simp only [isDueStr, key]

/-- Witness for C1 (amended): a friendly weekdays string and its round
trip agree at a concrete instant, with both hypotheses evaluated. -/
theorem cron_roundtrip_amended_witness :
    validCronStr "30 15 * * 1-5" = true ∧
    isDueStr "30 15 * * 1-5" ⟨30, 15, 7, 3, 2⟩
      = isDueStr (configToCron (parseCronToConfig "30 15 * * 1-5")) ⟨30, 15, 7, 3, 2⟩ :=
  ⟨by decide,
   cron_roundtrip_amended "30 15 * * 1-5" (by decide) (Or.inr (by decide))
     ⟨30, 15, 7, 3, 2⟩⟩

/-- Witness for C10: two forms differing everywhere except priority produce
the same payload from a messy symbol input. -/
theorem save_source_payload_frame_witness :
    saveSourcePayload ⟨"AkShare", DSType.news, "akshare", 2, true, []⟩ " 601127,， 600519  "
      = saveSourcePayload ⟨"Tushare", DSType.kline, "tushare", 2, false, ["x"]⟩
          " 601127,， 600519  " ∧
    (saveSourcePayload ⟨"AkShare", DSType.news, "akshare", 2, true, []⟩
        " 601127,， 600519  ").test_symbols = ["601127", "600519"] :=
  ⟨(save_source_payload_frame ⟨"AkShare", DSType.news, "akshare", 2, true, []⟩
      ⟨"Tushare", DSType.kline, "tushare", 2, false, ["x"]⟩ " 601127,， 600519  ").1 rfl,
   by decide⟩

end PanWatch
